import Mathlib

/-!
Verification of the quote-synchronization application
(`dom-manipulation/script.js`): shallow embedding of the data model, the
sync/merge engine, outbound quote propagation, and JSON import/export,
together with theorems settling the specification claims.

JavaScript records are modelled as Lean structures; the in-memory `quotes`
array is a `List Quote`; the `Map` used by `syncQuotes` is an association
list with JavaScript `Map` semantics (insertion order preserved, `set` on
an existing key updates in place); JavaScript primitive key values
(numbers and strings) are the inductive `JPrim`.
-/

set_option autoImplicit false

namespace QuoteApp

/-! Data model -/

/-- A JavaScript primitive value usable as an `id` / `Map` key: a number
or a string.  (Timestamps are plain numbers and are kept as `Int`.) -/
inductive JPrim where
  | num : Int → JPrim
  | str : String → JPrim
deriving DecidableEq, Repr

/-- JavaScript truthiness of a primitive: `0` and the empty string are
falsy, everything else is truthy.  Used by `q.id || fallback`. -/
def JPrim.truthy : JPrim → Bool
  | .num n => n != 0
  | .str s => s != ""

/-- A quote record: `text` and `category` are always strings; `id` and
`timestamp` are optional (a quote freshly imported from a file may lack
both). -/
structure Quote where
  text : String
  category : String
  id : Option JPrim := none
  timestamp : Option Int := none
deriving DecidableEq, Repr

/-- JavaScript `a > b` on two possibly-`undefined` numbers: any comparison
involving `undefined` is `false` (NaN semantics). -/
def jsGt : Option Int → Option Int → Bool
  | some a, some b => a > b
  | _, _ => false

/-- The merge key of a local record, from `syncQuotes` line 165:
`q.id || ("local_" + q.text.substring(0, 10))`. -/
def localKey (q : Quote) : JPrim :=
  match q.id with
  | some i => if i.truthy then i else .str ("local_" ++ q.text.take 10)
  | none => .str ("local_" ++ q.text.take 10)

/-- The merge key of a fetched remote record, from `syncQuotes` line 168:
`serverQuote.id || ("server_" + serverQuote.text.substring(0, 10))`. -/
def serverKey (q : Quote) : JPrim :=
  match q.id with
  | some i => if i.truthy then i else .str ("server_" ++ q.text.take 10)
  | none => .str ("server_" ++ q.text.take 10)

/-- The type of `localQuotesMap`: an association list with JavaScript
`Map` semantics. -/
abbrev QMap := List (JPrim × Quote)

/-- Model of `Map.prototype.set`: update in place if the key is present
(keeping its position), else append at the end. -/
def mapSet (m : QMap) (k : JPrim) (v : Quote) : QMap :=
  match m with
  | [] => [(k, v)]
  | (k', v') :: rest => if k' = k then (k, v) :: rest else (k', v') :: mapSet rest k v

/-- Model of `Map.prototype.get` (`none` models `undefined`). -/
def mapGet (m : QMap) (k : JPrim) : Option Quote :=
  match m with
  | [] => none
  | (k', v') :: rest => if k' = k then some v' else mapGet rest k

/-- Model of `Array.from(map.values())`. -/
def mapValues (m : QMap) : List Quote := m.map Prod.snd

/-- Lines 162-165 of `syncQuotes`: populate the map with the current
local data, keyed by `localKey`. -/
def buildLocalMap (qs : List Quote) : QMap :=
  qs.foldl (fun m q => mapSet m (localKey q) q) []

/-- The result of the merge: the new collection together with the two
reported counters. -/
structure MergeResult where
  quotes : List Quote
  mergeCount : Nat
  conflictCount : Nat
deriving DecidableEq, Repr

/-- One iteration of the `serverQuotes.forEach` loop in `syncQuotes`
lines 167-182: look the remote record up by its key; if a local record is
there, replace it only when the remote timestamp is strictly greater
(counting a conflict); otherwise insert it (counting a merge). -/
def mergeStep (acc : QMap × Nat × Nat) (sq : Quote) : QMap × Nat × Nat :=
  let m := acc.1
  let mergeCount := acc.2.1
  let conflictCount := acc.2.2
  let k := serverKey sq
  match mapGet m k with
  | some lq =>
      if jsGt sq.timestamp lq.timestamp then (mapSet m k sq, mergeCount, conflictCount + 1)
      else (m, mergeCount, conflictCount)
  | none => (mapSet m k sq, mergeCount + 1, conflictCount)

/-- The merge phase of `syncQuotes` (lines 160-185): build the local map,
fold the remote records through `mergeStep`, and read the new collection
back out of the map. -/
def mergeQuotes (localQs remoteQs : List Quote) : MergeResult :=
  let folded := remoteQs.foldl mergeStep (buildLocalMap localQs, 0, 0)
  ⟨mapValues folded.1, folded.2.1, folded.2.2⟩

/-- Spec-side predicate: the remote record's merge key is absent from the
map `M` (the record is "present only remotely"). -/
def newIn (M : QMap) (rq : Quote) : Bool := (mapGet M (serverKey rq)).isNone

/-- Spec-side predicate: the remote record's merge key is present in the
map `M` and the remote timestamp is strictly greater (the remote record
"wins the conflict"). -/
def winsIn (M : QMap) (rq : Quote) : Bool :=
  match mapGet M (serverKey rq) with
  | some lq => jsGt rq.timestamp lq.timestamp
  | none => false

/-! The sync pass: fetch, guard flag, statuses -/

/-- A post as returned by the mock endpoint; `id` and `title` are the
fields the mapping in `fetchServerQuotes` reads. -/
structure Post where
  id : Int
  title : String
deriving DecidableEq, Repr

/-- Outcome of the network fetch inside `fetchServerQuotes`: a response
carrying posts, or a thrown network error. -/
inductive FetchOutcome where
  | ok : List Post → FetchOutcome
  | networkFailure : FetchOutcome
deriving DecidableEq, Repr

/-- A sync-status indicator update, as written by `setSyncStatus`. -/
structure StatusMsg where
  message : String
  kind : String
deriving DecidableEq, Repr

/-- Model of `post.title.charAt(0).toUpperCase() + post.title.slice(1)`. -/
def jsCapitalize (s : String) : String :=
  (s.take 1).toUpper ++ s.drop 1

/-- The mapping of one fetched post into the local schema
(`fetchServerQuotes` lines 80-85): capitalized title, fixed category,
the post's id, and a timestamp derived from the current time. -/
def mapServerPost (now : Int) (p : Post) : Quote :=
  { text := jsCapitalize p.title
    category := "Server Update"
    id := some (.num p.id)
    timestamp := some (now - 10000 * p.id) }

/-- Embedding of `fetchServerQuotes` (lines 73-93): on success the posts
are mapped into quotes; on a network failure the error status is emitted
and the empty list is returned. -/
def fetchServerQuotes (now : Int) : FetchOutcome → List Quote × Option StatusMsg
  | .ok posts => (posts.map (mapServerPost now), none)
  | .networkFailure => ([], some ⟨"Sync Failed (Network Error)", "error"⟩)

/-- The application state `syncQuotes` touches: the in-memory collection,
the persisted copy in local storage, the re-entrancy flag, the sync-status
indicator and the conflict banner. -/
structure SyncState where
  quotes : List Quote
  stored : List Quote
  isSyncing : Bool
  status : StatusMsg
  conflictNote : String
deriving DecidableEq, Repr

/-- Embedding of `syncQuotes` (lines 145-202) as a state transition,
parameterized by the fetch outcome and the current time.  The `Bool`
paired with the new state records whether the invocation got past the
guard flag and performed a fetch at all. -/
def syncQuotes (s : SyncState) (fo : FetchOutcome) (now : Int) : SyncState × Bool :=
  if s.isSyncing then (s, false)
  else
    let s1 : SyncState := { s with isSyncing := true, status := ⟨"Syncing...", "loading"⟩ }
    let fetched := fetchServerQuotes now fo
    let s2 : SyncState :=
      match fetched.2 with
      | some st => { s1 with status := st }
      | none => s1
    if fetched.1.isEmpty then
      let s3 : SyncState := { s2 with isSyncing := false }
      if s3.status.kind ≠ "error" then
        ({ s3 with status := ⟨"Synced successfully.", "idle"⟩ }, true)
      else (s3, true)
    else
      let r := mergeQuotes s.quotes fetched.1
      ({ s2 with
          quotes := r.quotes
          stored := r.quotes
          conflictNote :=
            if r.conflictCount > 0 then
              "Server sync resolved " ++ toString r.conflictCount ++
                " conflicts. Server data took precedence."
            else ""
          status := ⟨"Sync Complete. Added " ++ toString r.mergeCount ++ " new quote(s).",
            "success"⟩
          isSyncing := false }, true)

/-! Adding a quote -/

/-- Outcome of the POST in `postNewQuoteToServer`: an acknowledged
response (ok or 201) carrying the server-assigned id, a non-ok status
code, or a thrown connection error. -/
inductive PostOutcome where
  | acked : JPrim → PostOutcome
  | badStatus : Nat → PostOutcome
  | connFail : PostOutcome
deriving DecidableEq, Repr

/-- The observable actions of the add-quote path, in program order:
writes of the collection to local storage, the network transmission
attempt, status updates, and blocking alerts. -/
inductive AddEvent where
  | persist : List Quote → AddEvent
  | postAttempt : Quote → AddEvent
  | statusMsg : StatusMsg → AddEvent
  | alert : String → AddEvent
deriving DecidableEq, Repr

/-- Embedding of `postNewQuoteToServer` (lines 99-138), acting on the
collection whose freshly pushed last record is `nq`: on an acknowledged
response the pushed record's `id` and `timestamp` are overwritten in
place with the server-confirmed values and the collection is saved again;
otherwise the collection is left as pushed and an error status is shown.
Returns the resulting collection, the success flag, and the emitted
events. -/
def postNewQuoteToServer (base : List Quote) (nq : Quote) (po : PostOutcome)
    (now2 : Int) : List Quote × Bool × List AddEvent :=
  match po with
  | .acked sid =>
      let confirmed : Quote := { nq with id := some sid, timestamp := some now2 }
      (base ++ [confirmed], true,
        [.statusMsg ⟨"Sending new quote...", "loading"⟩, .postAttempt nq,
          .persist (base ++ [confirmed]),
          .statusMsg ⟨"Quote posted successfully!", "success"⟩])
  | .badStatus c =>
      (base ++ [nq], false,
        [.statusMsg ⟨"Sending new quote...", "loading"⟩, .postAttempt nq,
          .statusMsg ⟨"Post Failed: Status " ++ toString c, "error"⟩])
  | .connFail =>
      (base ++ [nq], false,
        [.statusMsg ⟨"Sending new quote...", "loading"⟩, .postAttempt nq,
          .statusMsg ⟨"Post Failed (Connection Error)", "error"⟩])

/-- Model of `String.prototype.trim`: strip leading and trailing
whitespace.  Structural and executable (`String.trim` in core is defined
through `Substring` helpers that the kernel cannot evaluate). -/
def jsTrim (s : String) : String :=
  ⟨((s.data.dropWhile Char.isWhitespace).reverse.dropWhile Char.isWhitespace).reverse⟩

/-- Embedding of `handleAddQuote` (lines 361-399): trim the two fields;
when either is empty, alert and change nothing; otherwise push a record
with a temporary id and the current timestamp, persist it, then attempt
the POST; when the POST did not succeed, an alert reports that the quote
was only stored locally. -/
def handleAddQuote (qs : List Quote) (rawText rawCategory : String)
    (now : Int) (po : PostOutcome) (now2 : Int) : List Quote × List AddEvent :=
  let quoteText := jsTrim rawText
  let quoteCategory := jsTrim rawCategory
  if quoteText ≠ "" ∧ quoteCategory ≠ "" then
    let newQuote : Quote :=
      { text := quoteText, category := quoteCategory
        id := some (.str ("temp_" ++ toString now)), timestamp := some now }
    let pushed := qs ++ [newQuote]
    let posted := postNewQuoteToServer qs newQuote po now2
    (posted.1,
      .persist pushed :: posted.2.2 ++
        (if posted.2.1 then [] else
          [.alert ("Quote added locally, but failed to sync to the server. It will attempt to sync later.")]))
  else
    (qs, [.alert ("Please ensure both the quote text and a category are entered.")])

/-! Import / export -/

/-- A JSON value, as produced by `JSON.parse`. -/
inductive JValue where
  | jnull : JValue
  | jbool : Bool → JValue
  | jnum : Int → JValue
  | jstr : String → JValue
  | jarr : List JValue → JValue
  | jobj : List (String × JValue) → JValue

/-- Property read on a parsed JSON object (duplicate keys were collapsed
to the last occurrence by `JSON.parse`, hence the reverse lookup). -/
def getField (fields : List (String × JValue)) (name : String) : Option JValue :=
  fields.reverse.lookup name

/-- Whether `fields` carries `name` with a string value. -/
def strFieldB (fields : List (String × JValue)) (name : String) : Bool :=
  match getField fields name with
  | some (.jstr _) => true
  | _ => false

/-- Model of the check `typeof q.<name> === "string"` on a parsed value
`q`: property access on `null` throws (modelled as `Except.error`),
objects look the field up (`undefined` when missing), any other value has
no own properties. -/
def fieldIsString (v : JValue) (name : String) : Except Unit Bool :=
  match v with
  | .jnull => .error ()
  | .jobj fields => .ok (strFieldB fields name)
  | _ => .ok false

/-- Model of the validation
`importedData.every(q => typeof q.text === "string" && typeof q.category === "string")`
with JavaScript evaluation order: the first thrown property access aborts
the whole check, the first failing element yields `false`. -/
def checkImported : List JValue → Except Unit Bool
  | [] => .ok true
  | v :: rest =>
      match fieldIsString v ("text") with
      | .error () => .error ()
      | .ok false => .ok false
      | .ok true =>
          match fieldIsString v ("category") with
          | .error () => .error ()
          | .ok false => .ok false
          | .ok true => checkImported rest

/-- Abstraction of a parsed JSON object into the model's quote record:
the `text`, `category`, `id` and `timestamp` properties of the stored
object. -/
def jsonToQuote (v : JValue) : Quote :=
  match v with
  | .jobj fields =>
      { text :=
          match getField fields ("text") with
          | some (.jstr s) => s
          | _ => ""
        category :=
          match getField fields ("category") with
          | some (.jstr s) => s
          | _ => ""
        id :=
          match getField fields ("id") with
          | some (.jnum n) => some (.num n)
          | some (.jstr s) => some (.str s)
          | _ => none
        timestamp :=
          match getField fields ("timestamp") with
          | some (.jnum n) => some n
          | _ => none }
  | _ => { text := "", category := "" }

/-- Serialization of one quote record: `JSON.stringify` writes exactly
the fields present on the record (`id` and `timestamp` are absent when
the record never carried them). -/
def quoteToJson (q : Quote) : JValue :=
  .jobj ([("text", .jstr q.text), ("category", .jstr q.category)] ++
    (match q.id with
      | some (.num n) => [("id", .jnum n)]
      | some (.str s) => [("id", .jstr s)]
      | none => []) ++
    (match q.timestamp with
      | some t => [("timestamp", .jnum t)]
      | none => []))

/-- Embedding of `exportQuotes` (lines 315-328): the exported file is the
full collection serialized as a JSON array (the blob/anchor plumbing is
pure UI).  Serialization is modelled at the JSON-value level:
`JSON.parse` applied to the produced text yields exactly this value. -/
def exportQuotes (qs : List Quote) : JValue :=
  .jarr (qs.map quoteToJson)

/-- Outcome surfaced by an import attempt. -/
inductive ImportOutcome where
  | replaced : Nat → ImportOutcome
  | invalidAlert : ImportOutcome
  | parseAlert : ImportOutcome
deriving DecidableEq, Repr

/-- Embedding of `importQuotes` (lines 330-358) on an already-read file
content: `none` models text `JSON.parse` throws on.  On acceptance the
in-memory collection is replaced by the parsed records and persisted; a
parse error, a non-array value, or a failing element check leaves both
copies untouched and alerts (`parseAlert` is the catch-all alert, reached
also when an element access inside `every` throws). -/
def importQuotes (quotes stored : List Quote) (input : Option JValue) :
    List Quote × List Quote × ImportOutcome :=
  match input with
  | none => (quotes, stored, .parseAlert)
  | some v =>
      match v with
      | .jarr xs =>
          match checkImported xs with
          | .error () => (quotes, stored, .parseAlert)
          | .ok true =>
              let newQs := xs.map jsonToQuote
              (newQs, newQs, .replaced newQs.length)
          | .ok false => (quotes, stored, .invalidAlert)
      | _ => (quotes, stored, .invalidAlert)

/-- Spec-side element validity for import, from the claim's words: the
element has a string `text` and a string `category`. -/
def specElemOk (x : JValue) : Bool :=
  match x with
  | .jobj fields => strFieldB fields ("text") && strFieldB fields ("category")
  | _ => false

/-- Spec-side bad import input, from the claim's words: not valid JSON,
or not a list, or a list with an element lacking a string `text` or a
string `category`. -/
def specBadImport (input : Option JValue) : Bool :=
  match input with
  | none => true
  | some (.jarr xs) => !(xs.all specElemOk)
  | some _ => true

/-- The spec invariant: a quote has non-empty `text` and `category`. -/
def nonEmptyQuote (q : Quote) : Prop := q.text ≠ "" ∧ q.category ≠ ""

instance (q : Quote) : Decidable (nonEmptyQuote q) := by
  unfold nonEmptyQuote; infer_instance

/-! Association-list map lemmas -/

theorem mapGet_mapSet_self (m : QMap) (k : JPrim) (v : Quote) :
    mapGet (mapSet m k v) k = some v := by
  induction m with
  | nil => simp [mapSet, mapGet]
  | cons hd tl ih =>
      obtain ⟨k', v'⟩ := hd
      by_cases h : k' = k
      · simp [mapSet, mapGet, h]
      · simp [mapSet, mapGet, h, ih]

theorem mapGet_mapSet_ne (m : QMap) (k k' : JPrim) (v : Quote) (h : k' ≠ k) :
    mapGet (mapSet m k v) k' = mapGet m k' := by
  have hne : k ≠ k' := fun hh => h hh.symm
  induction m with
  | nil => simp [mapSet, mapGet, hne]
  | cons hd tl ih =>
      obtain ⟨k₀, v₀⟩ := hd
      by_cases hk : k₀ = k
      · subst hk
        simp [mapSet, mapGet, hne]
      · simp [mapSet, mapGet, hk, ih]

theorem mem_mapValues_of_mapGet (m : QMap) (k : JPrim) (v : Quote)
    (h : mapGet m k = some v) : v ∈ mapValues m := by
  induction m with
  | nil => simp [mapGet] at h
  | cons hd tl ih =>
      obtain ⟨k', v'⟩ := hd
      by_cases hk : k' = k
      · simp [mapGet, hk] at h
        simp [mapValues, h]
      · simp [mapGet, hk] at h
        simp [mapValues] at ih ⊢
        exact Or.inr (ih h)

theorem mapValues_mapSet (m : QMap) (k : JPrim) (v w : Quote)
    (h : w ∈ mapValues (mapSet m k v)) : w ∈ mapValues m ∨ w = v := by
  induction m with
  | nil => simp [mapSet, mapValues] at h; exact Or.inr h
  | cons hd tl ih =>
      obtain ⟨k₀, v₀⟩ := hd
      by_cases hk : k₀ = k
      · simp [mapSet, hk, mapValues] at h
        rcases h with h | h
        · exact Or.inr h
        · exact Or.inl (by simp [mapValues]; exact Or.inr h)
      · simp [mapSet, hk, mapValues] at h
        rcases h with h | h
        · exact Or.inl (by simp [mapValues, h])
        · rcases ih (by simpa [mapValues] using h) with h' | h'
          · exact Or.inl (by simp [mapValues] at h' ⊢; exact Or.inr h')
          · exact Or.inr h'

/-! Lemmas about `buildLocalMap` -/

theorem buildLocalMap_go_frame (qs : List Quote) :
    ∀ (m : QMap) (k : JPrim), k ∉ qs.map localKey →
      mapGet (qs.foldl (fun m q => mapSet m (localKey q) q) m) k = mapGet m k := by
  induction qs with
  | nil => intro m k _; rfl
  | cons q rest ih =>
      intro m k hk
      simp only [List.map_cons, List.mem_cons, not_or] at hk
      rw [List.foldl_cons, ih _ k hk.2, mapGet_mapSet_ne _ _ _ _ hk.1]

theorem mapGet_buildLocalMap_go (qs : List Quote) :
    ∀ (m : QMap) (q : Quote), (qs.map localKey).Nodup → q ∈ qs →
      mapGet (qs.foldl (fun m q => mapSet m (localKey q) q) m) (localKey q) = some q := by
  induction qs with
  | nil => intro _ _ _ h; cases h
  | cons x rest ih =>
      intro m q hnd hq
      simp only [List.map_cons, List.nodup_cons] at hnd
      rcases List.mem_cons.mp hq with h | h
      · subst h
        rw [List.foldl_cons, buildLocalMap_go_frame rest _ _ hnd.1,
          mapGet_mapSet_self]
      · exact ih _ q hnd.2 h

theorem mapGet_buildLocalMap_of_nodup (qs : List Quote) (q : Quote)
    (hnd : (qs.map localKey).Nodup) (hq : q ∈ qs) :
    mapGet (buildLocalMap qs) (localKey q) = some q :=
  mapGet_buildLocalMap_go qs [] q hnd hq

theorem buildLocalMap_values_go (qs : List Quote) :
    ∀ (m : QMap) (w : Quote),
      w ∈ mapValues (qs.foldl (fun m q => mapSet m (localKey q) q) m) →
      w ∈ mapValues m ∨ w ∈ qs := by
  induction qs with
  | nil => intro m w h; exact Or.inl h
  | cons q rest ih =>
      intro m w h
      rw [List.foldl_cons] at h
      rcases ih _ w h with h' | h'
      · rcases mapValues_mapSet _ _ _ _ h' with h'' | h''
        · exact Or.inl h''
        · exact Or.inr (by simp [h''])
      · exact Or.inr (List.mem_cons_of_mem _ h')

theorem buildLocalMap_values (qs : List Quote) (w : Quote)
    (h : w ∈ mapValues (buildLocalMap qs)) : w ∈ qs := by
  rcases buildLocalMap_values_go qs [] w h with h' | h'
  · simp [mapValues] at h'
  · exact h'

/-! Lemmas about the remote fold of `syncQuotes` -/

theorem mergeStep_get_frame (acc : QMap × Nat × Nat) (sq : Quote) (k : JPrim)
    (hk : k ≠ serverKey sq) :
    mapGet (mergeStep acc sq).1 k = mapGet acc.1 k := by
  obtain ⟨m, mc, cc⟩ := acc
  rcases h : mapGet m (serverKey sq) with _ | lq
  · simp [mergeStep, h, mapGet_mapSet_ne _ _ _ _ hk]
  · by_cases hw : jsGt sq.timestamp lq.timestamp
    · simp [mergeStep, h, hw, mapGet_mapSet_ne _ _ _ _ hk]
    · simp [mergeStep, h, hw]

theorem mergeFold_get_frame (remote : List Quote) :
    ∀ (acc : QMap × Nat × Nat) (k : JPrim), k ∉ remote.map serverKey →
      mapGet (remote.foldl mergeStep acc).1 k = mapGet acc.1 k := by
  induction remote with
  | nil => intro acc k _; rfl
  | cons sq rest ih =>
      intro acc k hk
      simp only [List.map_cons, List.mem_cons, not_or] at hk
      rw [List.foldl_cons, ih _ k hk.2, mergeStep_get_frame _ _ _ hk.1]

theorem mergeFold_get_found (remote : List Quote) :
    ∀ (acc : QMap × Nat × Nat) (rq lq : Quote),
      (remote.map serverKey).Nodup → rq ∈ remote →
      mapGet acc.1 (serverKey rq) = some lq →
      mapGet (remote.foldl mergeStep acc).1 (serverKey rq) =
        some (if jsGt rq.timestamp lq.timestamp then rq else lq) := by
  induction remote with
  | nil => intro _ _ _ _ h; cases h
  | cons sq rest ih =>
      intro acc rq lq hnd hrq hget
      simp only [List.map_cons, List.nodup_cons] at hnd
      rcases List.mem_cons.mp hrq with h | h
      · subst h
        rw [List.foldl_cons, mergeFold_get_frame rest _ _ hnd.1]
        obtain ⟨m, mc, cc⟩ := acc
        simp only at hget
        by_cases hw : jsGt rq.timestamp lq.timestamp
        · simp [mergeStep, hget, hw, mapGet_mapSet_self]
        · simp [mergeStep, hget, hw]
      · have hne : serverKey rq ≠ serverKey sq := by
          intro hh
          exact hnd.1 (hh ▸ List.mem_map_of_mem serverKey h)
        rw [List.foldl_cons]
        exact ih _ rq lq hnd.2 h (by rw [mergeStep_get_frame _ _ _ hne]; exact hget)

theorem mergeFold_get_new (remote : List Quote) :
    ∀ (acc : QMap × Nat × Nat) (rq : Quote),
      (remote.map serverKey).Nodup → rq ∈ remote →
      mapGet acc.1 (serverKey rq) = none →
      mapGet (remote.foldl mergeStep acc).1 (serverKey rq) = some rq := by
  induction remote with
  | nil => intro _ _ _ h; cases h
  | cons sq rest ih =>
      intro acc rq hnd hrq hget
      simp only [List.map_cons, List.nodup_cons] at hnd
      rcases List.mem_cons.mp hrq with h | h
      · subst h
        rw [List.foldl_cons, mergeFold_get_frame rest _ _ hnd.1]
        obtain ⟨m, mc, cc⟩ := acc
        simp only at hget
        simp [mergeStep, hget, mapGet_mapSet_self]
      · have hne : serverKey rq ≠ serverKey sq := by
          intro hh
          exact hnd.1 (hh ▸ List.mem_map_of_mem serverKey h)
        rw [List.foldl_cons]
        exact ih _ rq hnd.2 h (by rw [mergeStep_get_frame _ _ _ hne]; exact hget)

theorem mergeFold_counts (remote : List Quote) :
    ∀ (acc : QMap × Nat × Nat) (M : QMap),
      (remote.map serverKey).Nodup →
      (∀ rq ∈ remote, mapGet acc.1 (serverKey rq) = mapGet M (serverKey rq)) →
      (remote.foldl mergeStep acc).2.1 = acc.2.1 + (remote.filter (newIn M)).length ∧
      (remote.foldl mergeStep acc).2.2 = acc.2.2 + (remote.filter (winsIn M)).length := by
  induction remote with
  | nil => intro acc M _ _; simp
  | cons sq rest ih =>
      intro acc M hnd hagree
      simp only [List.map_cons, List.nodup_cons] at hnd
      obtain ⟨m, mc, cc⟩ := acc
      have hsq := hagree sq (List.mem_cons_self _ _)
      have hagree' : ∀ rq ∈ rest,
          mapGet (mergeStep (m, mc, cc) sq).1 (serverKey rq) = mapGet M (serverKey rq) := by
        intro rq hrq
        have hne : serverKey rq ≠ serverKey sq := fun hh =>
          hnd.1 (hh ▸ List.mem_map_of_mem serverKey hrq)
        rw [mergeStep_get_frame _ _ _ hne]
        exact hagree rq (List.mem_cons_of_mem _ hrq)
      obtain ⟨h1, h2⟩ := ih (mergeStep (m, mc, cc) sq) M hnd.2 hagree'
      rw [List.foldl_cons]
      rcases hM : mapGet M (serverKey sq) with _ | lq
      · have hm : mapGet m (serverKey sq) = none := hsq.trans hM
        have hstep : mergeStep (m, mc, cc) sq = (mapSet m (serverKey sq) sq, mc + 1, cc) := by
          simp [mergeStep, hm]
        have hnew : newIn M sq = true := by simp [newIn, hM]
        have hwin : winsIn M sq = false := by simp [winsIn, hM]
        rw [hstep] at h1 h2
        refine ⟨?_, ?_⟩
        · rw [hstep, h1]; simp [List.filter_cons, hnew]; omega
        · rw [hstep, h2]; simp [List.filter_cons, hwin]
      · have hm : mapGet m (serverKey sq) = some lq := hsq.trans hM
        have hnew : newIn M sq = false := by simp [newIn, hM]
        by_cases hw : jsGt sq.timestamp lq.timestamp
        · have hstep : mergeStep (m, mc, cc) sq = (mapSet m (serverKey sq) sq, mc, cc + 1) := by
            simp [mergeStep, hm, hw]
          have hwin : winsIn M sq = true := by simp [winsIn, hM, hw]
          rw [hstep] at h1 h2
          refine ⟨?_, ?_⟩
          · rw [hstep, h1]; simp [List.filter_cons, hnew]
          · rw [hstep, h2]; simp [List.filter_cons, hwin]; omega
        · have hstep : mergeStep (m, mc, cc) sq = (m, mc, cc) := by
            simp [mergeStep, hm, hw]
          have hwin : winsIn M sq = false := by simp [winsIn, hM, hw]
          rw [hstep] at h1 h2
          refine ⟨?_, ?_⟩
          · rw [hstep, h1]; simp [List.filter_cons, hnew]
          · rw [hstep, h2]; simp [List.filter_cons, hwin]

/-- Keys starting with the two distinct fallback tags are never equal. -/
theorem local_tag_ne_server_tag (a b : String) :
    ("local_" ++ a : String) ≠ "server_" ++ b := by
  intro h
  have h2 : ("local_" ++ a).data = ("server_" ++ b).data := congrArg String.data h
  rw [String.data_append, String.data_append] at h2
  rw [show ("local_" : String).data = 'l' :: ("ocal_" : String).data from rfl,
    show ("server_" : String).data = 's' :: ("erver_" : String).data from rfl,
    List.cons_append, List.cons_append] at h2
  injection h2 with h3 _
  exact absurd h3 (by decide)

theorem mergeFold_values (remote : List Quote) (P : Quote → Prop) :
    ∀ (acc : QMap × Nat × Nat), (∀ w ∈ mapValues acc.1, P w) →
      (∀ rq ∈ remote, P rq) →
      ∀ w ∈ mapValues (remote.foldl mergeStep acc).1, P w := by
  induction remote with
  | nil => intro acc hacc _ w hw; exact hacc w hw
  | cons sq rest ih =>
      intro acc hacc hrem w hw
      rw [List.foldl_cons] at hw
      refine ih _ ?_ (fun rq hrq => hrem rq (List.mem_cons_of_mem _ hrq)) w hw
      intro u hu
      obtain ⟨m, mc, cc⟩ := acc
      rcases hg : mapGet m (serverKey sq) with _ | lq
      · rcases mapValues_mapSet _ _ _ _ (by simpa [mergeStep, hg] using hu) with h' | h'
        · exact hacc u h'
        · exact h' ▸ hrem sq (List.mem_cons_self _ _)
      · by_cases hw' : jsGt sq.timestamp lq.timestamp
        · rcases mapValues_mapSet _ _ _ _ (by simpa [mergeStep, hg, hw'] using hu) with h' | h'
          · exact hacc u h'
          · exact h' ▸ hrem sq (List.mem_cons_self _ _)
        · exact hacc u (by simpa [mergeStep, hg, hw'] using hu)

theorem mergeQuotes_values (localQs remoteQs : List Quote) (P : Quote → Prop)
    (hl : ∀ q ∈ localQs, P q) (hr : ∀ q ∈ remoteQs, P q) :
    ∀ q ∈ (mergeQuotes localQs remoteQs).quotes, P q := by
  intro q hq
  exact mergeFold_values remoteQs P (buildLocalMap localQs, 0, 0)
    (fun w hw => hl w (buildLocalMap_values _ _ hw)) hr q hq

/-! Round-trip and validation lemmas for import / export -/

theorem jsonToQuote_quoteToJson (q : Quote) : jsonToQuote (quoteToJson q) = q := by
  rcases q with ⟨t, c, i, ts⟩
  rcases i with _ | i
  · rcases ts with _ | ts
    · rfl
    · rfl
  · rcases i with n | s <;> rcases ts with _ | ts <;> rfl

theorem checkImported_export (qs : List Quote) :
    checkImported (qs.map quoteToJson) = .ok true := by
  induction qs with
  | nil => rfl
  | cons q rest ih =>
      have hq : fieldIsString (quoteToJson q) ("text") = .ok true ∧
          fieldIsString (quoteToJson q) ("category") = .ok true := by
        rcases q with ⟨t, c, i, ts⟩
        rcases i with _ | i
        · rcases ts with _ | ts
          · exact ⟨rfl, rfl⟩
          · exact ⟨rfl, rfl⟩
        · rcases i with n | s <;> rcases ts with _ | ts <;> exact ⟨rfl, rfl⟩
      simp [List.map_cons, checkImported, hq.1, hq.2, ih]

theorem all_specElemOk_of_checkImported (xs : List JValue)
    (h : checkImported xs = .ok true) : xs.all specElemOk = true := by
  induction xs with
  | nil => rfl
  | cons v rest ih =>
      rcases h1 : fieldIsString v ("text") with e | b1
      · simp [checkImported, h1] at h
      · cases b1
        · simp [checkImported, h1] at h
        · rcases h2 : fieldIsString v ("category") with e | b2
          · simp [checkImported, h1, h2] at h
          · cases b2
            · simp [checkImported, h1, h2] at h
            · have hrest : checkImported rest = .ok true := by
                simpa [checkImported, h1, h2] using h
              have hel : specElemOk v = true := by
                rcases v with _ | b | n | s | ys | fields
                · simp [fieldIsString] at h1
                · simp [fieldIsString] at h1
                · simp [fieldIsString] at h1
                · simp [fieldIsString] at h1
                · simp [fieldIsString] at h1
                · simp [fieldIsString] at h1 h2
                  simp [specElemOk, h1, h2]
              simp [List.all_cons, hel, ih hrest]

/-! Claim C1 -/

/-- Claim C1: in the sync merge, for every merge key present in both the
local collection (as the `localQuotesMap` entry for that key) and the
fetched remote set, the remote record replaces the local record in the
result exactly when the remote timestamp is strictly greater than the
local one; when it is equal or smaller, the local record is kept unchanged
in the result.  (Remote merge keys are assumed pairwise distinct, as the
claim speaks of "the" remote record for a key.) -/
theorem syncMerge_timestamp_precedence (localQs remoteQs : List Quote)
    (hnd : (remoteQs.map serverKey).Nodup)
    (k : JPrim) (lq rq : Quote)
    (hl : mapGet (buildLocalMap localQs) k = some lq)
    (hr : rq ∈ remoteQs) (hk : serverKey rq = k) :
    mapGet ((remoteQs.foldl mergeStep (buildLocalMap localQs, 0, 0)).1) k =
      some (if jsGt rq.timestamp lq.timestamp then rq else lq) ∧
    (if jsGt rq.timestamp lq.timestamp then rq else lq) ∈
      (mergeQuotes localQs remoteQs).quotes := by
  subst hk
  have h := mergeFold_get_found remoteQs (buildLocalMap localQs, 0, 0) rq lq hnd hr hl
  exact ⟨h, mem_mapValues_of_mapGet _ _ _ h⟩

/-- Witness for C1, on the spec test vector: local
`{id: 1, timestamp: 100}` against remote `{id: 1, timestamp: 50}` keeps
the local record. -/
theorem syncMerge_timestamp_precedence_witness :
    (([⟨"b", "Server Update", some (.num 1), some 50⟩] : List Quote).map serverKey).Nodup ∧
    mapGet (buildLocalMap [⟨"a", "Work", some (.num 1), some 100⟩]) (.num 1) =
      some ⟨"a", "Work", some (.num 1), some 100⟩ ∧
    (⟨"b", "Server Update", some (.num 1), some 50⟩ : Quote) ∈
      ([⟨"b", "Server Update", some (.num 1), some 50⟩] : List Quote) ∧
    serverKey ⟨"b", "Server Update", some (.num 1), some 50⟩ = .num 1 ∧
    (mapGet ((([⟨"b", "Server Update", some (.num 1), some 50⟩] : List Quote).foldl mergeStep
        (buildLocalMap [⟨"a", "Work", some (.num 1), some 100⟩], 0, 0)).1) (.num 1) =
      some (if jsGt (some 50) (some 100) then ⟨"b", "Server Update", some (.num 1), some 50⟩
        else ⟨"a", "Work", some (.num 1), some 100⟩) ∧
    (if jsGt (some 50) (some 100) then (⟨"b", "Server Update", some (.num 1), some 50⟩ : Quote)
        else ⟨"a", "Work", some (.num 1), some 100⟩) ∈
      (mergeQuotes [⟨"a", "Work", some (.num 1), some 100⟩]
        [⟨"b", "Server Update", some (.num 1), some 50⟩]).quotes) :=
  ⟨by decide, by decide, by decide, by decide,
    syncMerge_timestamp_precedence
      [⟨"a", "Work", some (.num 1), some 100⟩]
      [⟨"b", "Server Update", some (.num 1), some 50⟩]
      (by decide) (.num 1)
      ⟨"a", "Work", some (.num 1), some 100⟩
      ⟨"b", "Server Update", some (.num 1), some 50⟩
      (by decide) (by decide) (by decide)⟩

/-! Claim C2 -/

/-- Claim C2: after a merge over a non-empty remote set with pairwise
distinct remote merge keys, the reported merge count is the number of
remote records whose key is absent locally (each of which appears in the
result), and the reported conflict count is the number of remote records
whose key is present locally with a strictly greater remote timestamp. -/
theorem syncMerge_counts (localQs remoteQs : List Quote)
    (hnd : (remoteQs.map serverKey).Nodup) (_hne : remoteQs ≠ []) :
    (mergeQuotes localQs remoteQs).mergeCount =
      (remoteQs.filter (newIn (buildLocalMap localQs))).length ∧
    (mergeQuotes localQs remoteQs).conflictCount =
      (remoteQs.filter (winsIn (buildLocalMap localQs))).length ∧
    ∀ rq ∈ remoteQs, newIn (buildLocalMap localQs) rq = true →
      rq ∈ (mergeQuotes localQs remoteQs).quotes := by
  obtain ⟨h1, h2⟩ := mergeFold_counts remoteQs (buildLocalMap localQs, 0, 0)
    (buildLocalMap localQs) hnd (fun _ _ => rfl)
  refine ⟨by simpa using h1, by simpa using h2, ?_⟩
  intro rq hrq hnew
  have hget := mergeFold_get_new remoteQs (buildLocalMap localQs, 0, 0) rq hnd hrq
    (by simpa [newIn, Option.isNone_iff_eq_none] using hnew)
  exact mem_mapValues_of_mapGet _ _ _ hget

/-- Witness for C2: one remote record with a fresh id is counted as one
merge and zero conflicts and lands in the result. -/
theorem syncMerge_counts_witness :
    (([⟨"r", "Server Update", some (.num 7), some 5⟩] : List Quote).map serverKey).Nodup ∧
    ([⟨"r", "Server Update", some (.num 7), some 5⟩] : List Quote) ≠ [] ∧
    ((mergeQuotes [⟨"a", "Work", some (.num 1), some 100⟩]
        [⟨"r", "Server Update", some (.num 7), some 5⟩]).mergeCount =
      (([⟨"r", "Server Update", some (.num 7), some 5⟩] : List Quote).filter
        (newIn (buildLocalMap [⟨"a", "Work", some (.num 1), some 100⟩]))).length ∧
    (mergeQuotes [⟨"a", "Work", some (.num 1), some 100⟩]
        [⟨"r", "Server Update", some (.num 7), some 5⟩]).conflictCount =
      (([⟨"r", "Server Update", some (.num 7), some 5⟩] : List Quote).filter
        (winsIn (buildLocalMap [⟨"a", "Work", some (.num 1), some 100⟩]))).length ∧
    ∀ rq ∈ ([⟨"r", "Server Update", some (.num 7), some 5⟩] : List Quote),
      newIn (buildLocalMap [⟨"a", "Work", some (.num 1), some 100⟩]) rq = true →
      rq ∈ (mergeQuotes [⟨"a", "Work", some (.num 1), some 100⟩]
        [⟨"r", "Server Update", some (.num 7), some 5⟩]).quotes) :=
  ⟨by decide, by decide,
    syncMerge_counts [⟨"a", "Work", some (.num 1), some 100⟩]
      [⟨"r", "Server Update", some (.num 7), some 5⟩] (by decide) (by decide)⟩

/-! Claim C3 -/

/-- Counterexample to claim C3: two local records that share the merge key
`id = 1`.  The first one's key does not occur in the remote set, yet the
merged result drops it: populating `localQuotesMap` keeps only the last
local record per key. -/
theorem syncMerge_retention_cex :
    (⟨"a", "c", some (.num 1), some 0⟩ : Quote) ∈
      ([⟨"a", "c", some (.num 1), some 0⟩, ⟨"b", "c", some (.num 1), some 0⟩] : List Quote) ∧
    localKey ⟨"a", "c", some (.num 1), some 0⟩ ∉
      ([⟨"r", "Server Update", some (.num 2), some 5⟩] : List Quote).map serverKey ∧
    (⟨"a", "c", some (.num 1), some 0⟩ : Quote) ∉
      (mergeQuotes [⟨"a", "c", some (.num 1), some 0⟩, ⟨"b", "c", some (.num 1), some 0⟩]
        [⟨"r", "Server Update", some (.num 2), some 5⟩]).quotes := by
  decide

/-- Claim C3 as amended: provided the local merge keys are pairwise
distinct, every local quote whose merge key does not occur in the fetched
remote set is retained unchanged in the merged result. -/
theorem syncMerge_retains_unmatched_local (localQs remoteQs : List Quote)
    (hnd : (localQs.map localKey).Nodup)
    (q : Quote) (hq : q ∈ localQs)
    (hk : localKey q ∉ remoteQs.map serverKey) :
    q ∈ (mergeQuotes localQs remoteQs).quotes := by
  have h1 := mapGet_buildLocalMap_of_nodup localQs q hnd hq
  have h2 := mergeFold_get_frame remoteQs (buildLocalMap localQs, 0, 0) (localKey q) hk
  exact mem_mapValues_of_mapGet _ _ _ (by rw [h2]; exact h1)

/-- Witness for the amended C3. -/
theorem syncMerge_retains_unmatched_local_witness :
    (([⟨"a", "c", some (.num 1), some 0⟩] : List Quote).map localKey).Nodup ∧
    (⟨"a", "c", some (.num 1), some 0⟩ : Quote) ∈
      ([⟨"a", "c", some (.num 1), some 0⟩] : List Quote) ∧
    localKey ⟨"a", "c", some (.num 1), some 0⟩ ∉
      ([⟨"r", "Server Update", some (.num 2), some 5⟩] : List Quote).map serverKey ∧
    (⟨"a", "c", some (.num 1), some 0⟩ : Quote) ∈
      (mergeQuotes [⟨"a", "c", some (.num 1), some 0⟩]
        [⟨"r", "Server Update", some (.num 2), some 5⟩]).quotes :=
  ⟨by decide, by decide, by decide,
    syncMerge_retains_unmatched_local [⟨"a", "c", some (.num 1), some 0⟩]
      [⟨"r", "Server Update", some (.num 2), some 5⟩] (by decide)
      ⟨"a", "c", some (.num 1), some 0⟩ (by decide) (by decide)⟩

/-! Claim C4 -/

/-- Counterexample to claim C4: an id-less local record and an id-less
remote record with the identical text (hence identical text prefix) are
not aligned: the fallback keys are tagged differently, so no last-write
wins occurs even though the remote timestamp is greater, and the result
keeps both records with no conflict counted. -/
theorem mergeKey_fallback_cex :
    (⟨"same text here", "c", none, some 0⟩ : Quote).text.take 10 =
      (⟨"same text here", "Server Update", none, some 100⟩ : Quote).text.take 10 ∧
    (⟨"same text here", "c", none, some 0⟩ : Quote).id = none ∧
    (⟨"same text here", "Server Update", none, some 100⟩ : Quote).id = none ∧
    jsGt (some 100) (some 0) = true ∧
    localKey ⟨"same text here", "c", none, some 0⟩ ≠
      serverKey ⟨"same text here", "Server Update", none, some 100⟩ ∧
    (mergeQuotes [⟨"same text here", "c", none, some 0⟩]
        [⟨"same text here", "Server Update", none, some 100⟩]).quotes =
      [⟨"same text here", "c", none, some 0⟩,
        ⟨"same text here", "Server Update", none, some 100⟩] ∧
    (mergeQuotes [⟨"same text here", "c", none, some 0⟩]
        [⟨"same text here", "Server Update", none, some 100⟩]).conflictCount = 0 := by
  decide

/-- Claim C4 as amended: the merge aligns local and remote records by a
truthy `id` when present; when `id` is absent the fallback keys carry
different tags (`local_` locally, `server_` remotely), so an id-less local
record and an id-less remote record are never assigned the same merge key,
whatever their texts; duplicate detection and last-write-wins therefore
apply only through `id`. -/
theorem mergeKey_fallback_disjoint (lq rq : Quote)
    (hl : lq.id = none) (hr : rq.id = none) :
    localKey lq ≠ serverKey rq ∧
    ∀ i : JPrim, i.truthy = true →
      localKey { lq with id := some i } = serverKey { rq with id := some i } := by
  constructor
  · rw [localKey, serverKey, hl, hr]
    intro h
    exact local_tag_ne_server_tag _ _ (JPrim.str.inj h)
  · intro i hi
    simp [localKey, serverKey, hi]

/-- Witness for the amended C4. -/
theorem mergeKey_fallback_disjoint_witness :
    (⟨"same text here", "c", none, some 0⟩ : Quote).id = none ∧
    (⟨"same text here", "Server Update", none, some 100⟩ : Quote).id = none ∧
    (localKey ⟨"same text here", "c", none, some 0⟩ ≠
      serverKey ⟨"same text here", "Server Update", none, some 100⟩ ∧
    ∀ i : JPrim, i.truthy = true →
      localKey { (⟨"same text here", "c", none, some 0⟩ : Quote) with id := some i } =
        serverKey { (⟨"same text here", "Server Update", none, some 100⟩ : Quote) with
          id := some i }) :=
  ⟨rfl, rfl,
    mergeKey_fallback_disjoint ⟨"same text here", "c", none, some 0⟩
      ⟨"same text here", "Server Update", none, some 100⟩ rfl rfl⟩

/-! Claim C5 -/

/-- Claim C5: with no sync in flight, a pass whose fetch fails leaves the
in-memory collection and the persisted copy exactly as they were and ends
with the error status on display, and a pass that fetches zero remote
records also changes nothing and ends in the success/idle status. -/
theorem syncQuotes_failed_or_empty_fetch (s : SyncState) (now : Int)
    (h : s.isSyncing = false) :
    ((syncQuotes s .networkFailure now).1.quotes = s.quotes ∧
      (syncQuotes s .networkFailure now).1.stored = s.stored ∧
      (syncQuotes s .networkFailure now).1.status =
        ⟨"Sync Failed (Network Error)", "error"⟩) ∧
    ((syncQuotes s (.ok []) now).1.quotes = s.quotes ∧
      (syncQuotes s (.ok []) now).1.stored = s.stored ∧
      (syncQuotes s (.ok []) now).1.status = ⟨"Synced successfully.", "idle"⟩) := by
  simp [syncQuotes, fetchServerQuotes, h]

/-- Witness for C5. -/
theorem syncQuotes_failed_or_empty_fetch_witness :
    (SyncState.mk [⟨"a", "c", none, none⟩] [⟨"a", "c", none, none⟩] false
        ⟨"", "idle"⟩ "").isSyncing = false ∧
    (((syncQuotes (SyncState.mk [⟨"a", "c", none, none⟩] [⟨"a", "c", none, none⟩] false
          ⟨"", "idle"⟩ "") .networkFailure 0).1.quotes = [⟨"a", "c", none, none⟩] ∧
      (syncQuotes (SyncState.mk [⟨"a", "c", none, none⟩] [⟨"a", "c", none, none⟩] false
          ⟨"", "idle"⟩ "") .networkFailure 0).1.stored = [⟨"a", "c", none, none⟩] ∧
      (syncQuotes (SyncState.mk [⟨"a", "c", none, none⟩] [⟨"a", "c", none, none⟩] false
          ⟨"", "idle"⟩ "") .networkFailure 0).1.status =
        ⟨"Sync Failed (Network Error)", "error"⟩) ∧
    ((syncQuotes (SyncState.mk [⟨"a", "c", none, none⟩] [⟨"a", "c", none, none⟩] false
          ⟨"", "idle"⟩ "") (.ok []) 0).1.quotes = [⟨"a", "c", none, none⟩] ∧
      (syncQuotes (SyncState.mk [⟨"a", "c", none, none⟩] [⟨"a", "c", none, none⟩] false
          ⟨"", "idle"⟩ "") (.ok []) 0).1.stored = [⟨"a", "c", none, none⟩] ∧
      (syncQuotes (SyncState.mk [⟨"a", "c", none, none⟩] [⟨"a", "c", none, none⟩] false
          ⟨"", "idle"⟩ "") (.ok []) 0).1.status = ⟨"Synced successfully.", "idle"⟩)) :=
  ⟨rfl, syncQuotes_failed_or_empty_fetch
    (SyncState.mk [⟨"a", "c", none, none⟩] [⟨"a", "c", none, none⟩] false
      ⟨"", "idle"⟩ "") 0 rfl⟩

/-! Claim C6 -/

/-- Claim C6: a submission with non-empty trimmed text and category is
appended with a temporary id and a timestamp and persisted before the
network transmission is attempted (the first three events, for every
outcome, are that persist, the loading status, and the POST attempt); on
an acknowledged POST the record's id and timestamp are overwritten with
the server-confirmed values and the collection is persisted again; on
either failure mode — a thrown connection error or a non-OK response
status — the record with the temporary id remains and the failure alert
is shown. -/
theorem handleAddQuote_persist_then_post (qs : List Quote)
    (rawText rawCategory : String) (now now2 : Int) (sid : JPrim) (po : PostOutcome)
    (c : Nat) (ht : jsTrim rawText ≠ "") (hc : jsTrim rawCategory ≠ "") :
    (handleAddQuote qs rawText rawCategory now po now2).2.take 3 =
      [.persist (qs ++ [⟨jsTrim rawText, jsTrim rawCategory,
          some (.str ("temp_" ++ toString now)), some now⟩]),
        .statusMsg ⟨"Sending new quote...", "loading"⟩,
        .postAttempt ⟨jsTrim rawText, jsTrim rawCategory,
          some (.str ("temp_" ++ toString now)), some now⟩] ∧
    (handleAddQuote qs rawText rawCategory now (.acked sid) now2).1 =
      qs ++ [⟨jsTrim rawText, jsTrim rawCategory, some sid, some now2⟩] ∧
    .persist (qs ++ [⟨jsTrim rawText, jsTrim rawCategory, some sid, some now2⟩]) ∈
      (handleAddQuote qs rawText rawCategory now (.acked sid) now2).2 ∧
    (handleAddQuote qs rawText rawCategory now .connFail now2).1 =
      qs ++ [⟨jsTrim rawText, jsTrim rawCategory,
        some (.str ("temp_" ++ toString now)), some now⟩] ∧
    .alert ("Quote added locally, but failed to sync to the server. It will attempt to sync later.") ∈
      (handleAddQuote qs rawText rawCategory now .connFail now2).2 ∧
    (handleAddQuote qs rawText rawCategory now (.badStatus c) now2).1 =
      qs ++ [⟨jsTrim rawText, jsTrim rawCategory,
        some (.str ("temp_" ++ toString now)), some now⟩] ∧
    .alert ("Quote added locally, but failed to sync to the server. It will attempt to sync later.") ∈
      (handleAddQuote qs rawText rawCategory now (.badStatus c) now2).2 := by
  refine ⟨?_, ?_, ?_, ?_, ?_, ?_, ?_⟩
  · cases po <;> simp [handleAddQuote, postNewQuoteToServer, ht, hc]
  · simp [handleAddQuote, postNewQuoteToServer, ht, hc]
  · simp [handleAddQuote, postNewQuoteToServer, ht, hc]
  · simp [handleAddQuote, postNewQuoteToServer, ht, hc]
  · simp [handleAddQuote, postNewQuoteToServer, ht, hc]
  · simp [handleAddQuote, postNewQuoteToServer, ht, hc]
  · simp [handleAddQuote, postNewQuoteToServer, ht, hc]

/-- Witness for C6. -/
theorem handleAddQuote_persist_then_post_witness :
    (jsTrim (" hi ") ≠ "" ∧ jsTrim ("cat") ≠ "") ∧
    ((handleAddQuote [] (" hi ") ("cat") 5 (.badStatus 500) 9).2.take 3 =
      [.persist [⟨jsTrim (" hi "), jsTrim ("cat"),
          some (.str ("temp_" ++ toString (5 : Int))), some 5⟩],
        .statusMsg ⟨"Sending new quote...", "loading"⟩,
        .postAttempt ⟨jsTrim (" hi "), jsTrim ("cat"),
          some (.str ("temp_" ++ toString (5 : Int))), some 5⟩] ∧
    (handleAddQuote [] (" hi ") ("cat") 5 (.acked (.num 101)) 9).1 =
      [⟨jsTrim (" hi "), jsTrim ("cat"), some (.num 101), some 9⟩] ∧
    .persist [⟨jsTrim (" hi "), jsTrim ("cat"), some (.num 101), some 9⟩] ∈
      (handleAddQuote [] (" hi ") ("cat") 5 (.acked (.num 101)) 9).2 ∧
    (handleAddQuote [] (" hi ") ("cat") 5 .connFail 9).1 =
      [⟨jsTrim (" hi "), jsTrim ("cat"),
        some (.str ("temp_" ++ toString (5 : Int))), some 5⟩] ∧
    .alert ("Quote added locally, but failed to sync to the server. It will attempt to sync later.") ∈
      (handleAddQuote [] (" hi ") ("cat") 5 .connFail 9).2 ∧
    (handleAddQuote [] (" hi ") ("cat") 5 (.badStatus 500) 9).1 =
      [⟨jsTrim (" hi "), jsTrim ("cat"),
        some (.str ("temp_" ++ toString (5 : Int))), some 5⟩] ∧
    .alert ("Quote added locally, but failed to sync to the server. It will attempt to sync later.") ∈
      (handleAddQuote [] (" hi ") ("cat") 5 (.badStatus 500) 9).2) :=
  ⟨⟨by decide, by decide⟩,
    by
      simpa using handleAddQuote_persist_then_post [] (" hi ") ("cat") 5 9 (.num 101)
        (.badStatus 500) 500 (by decide) (by decide)⟩

/-! Claim C7 -/

/-- Claim C7: exporting any collection and importing the exported content
reproduces exactly the same collection, `id` and `timestamp` fields
included.  (Every quote of the model has string `text` and `category`, so
the claim's validity hypothesis is carried by the `Quote` type itself.) -/
theorem export_import_roundtrip (qs cur stored : List Quote) :
    importQuotes cur stored (some (exportQuotes qs)) =
      (qs, qs, .replaced qs.length) := by
  have hmap : (qs.map quoteToJson).map jsonToQuote = qs := by
    induction qs with
    | nil => rfl
    | cons x xs ih => simp [jsonToQuote_quoteToJson, ih]
  simp [importQuotes, exportQuotes, checkImported_export qs, hmap]

/-! Claim C8 -/

/-- Claim C8: every import input that is not valid JSON, or does not
parse to a list, or parses to a list in which some element lacks a string
`text` or a string `category`, is rejected with an alert, and both the
in-memory collection and its persisted copy are left unchanged. -/
theorem importQuotes_rejects_invalid (cur stored : List Quote)
    (input : Option JValue) (hbad : specBadImport input = true) :
    (importQuotes cur stored input).1 = cur ∧
    (importQuotes cur stored input).2.1 = stored ∧
    ((importQuotes cur stored input).2.2 = .invalidAlert ∨
      (importQuotes cur stored input).2.2 = .parseAlert) := by
  rcases input with _ | v
  · simp [importQuotes]
  · rcases v with _ | b | n | s | xs | fields
    · simp [importQuotes]
    · simp [importQuotes]
    · simp [importQuotes]
    · simp [importQuotes]
    · have hne : checkImported xs ≠ .ok true := by
        intro hok
        have hall := all_specElemOk_of_checkImported xs hok
        simp [specBadImport, hall] at hbad
      rcases hchk : checkImported xs with e | b
      · simp [importQuotes, hchk]
      · cases b
        · simp [importQuotes, hchk]
        · exact absurd hchk hne
    · simp [importQuotes]

/-- Witness for C8, on the spec example: importing `[{"text":"a"}]`
(missing `category`) is rejected and the collection remains unchanged. -/
theorem importQuotes_rejects_invalid_witness :
    specBadImport (some (.jarr [.jobj [("text", .jstr "a")]])) = true ∧
    ((importQuotes [⟨"x", "y", none, none⟩] [⟨"x", "y", none, none⟩]
        (some (.jarr [.jobj [("text", .jstr "a")]]))).1 = [⟨"x", "y", none, none⟩] ∧
      (importQuotes [⟨"x", "y", none, none⟩] [⟨"x", "y", none, none⟩]
        (some (.jarr [.jobj [("text", .jstr "a")]]))).2.1 = [⟨"x", "y", none, none⟩] ∧
      ((importQuotes [⟨"x", "y", none, none⟩] [⟨"x", "y", none, none⟩]
          (some (.jarr [.jobj [("text", .jstr "a")]]))).2.2 = .invalidAlert ∨
        (importQuotes [⟨"x", "y", none, none⟩] [⟨"x", "y", none, none⟩]
          (some (.jarr [.jobj [("text", .jstr "a")]]))).2.2 = .parseAlert)) :=
  ⟨by decide, importQuotes_rejects_invalid [⟨"x", "y", none, none⟩]
    [⟨"x", "y", none, none⟩] (some (.jarr [.jobj [("text", .jstr "a")]])) (by decide)⟩

/-! Claim C9 -/

/-- Counterexample to claim C9: importing `[{"text":"","category":""}]`
is accepted — the import validation checks only that the fields are
strings — and both the in-memory collection and the persisted copy now
hold a quote with empty `text` and `category`.  The mutating operation
`import` therefore does not preserve the invariant the claim asserts. -/
theorem nonempty_invariant_cex :
    importQuotes [⟨"good", "cat", none, none⟩] [⟨"good", "cat", none, none⟩]
        (some (.jarr [.jobj [("text", .jstr ""), ("category", .jstr "")]])) =
      ([⟨"", "", none, none⟩], [⟨"", "", none, none⟩], .replaced 1) ∧
    nonEmptyQuote ⟨"good", "cat", none, none⟩ ∧
    ¬ nonEmptyQuote ⟨"", "", none, none⟩ := by
  refine ⟨rfl, by decide, by decide⟩

/-- Claim C9 as amended: the add path enforces and preserves the
invariant — a submission whose trimmed text or trimmed category is empty
is rejected with only a warning alert and no mutation, and any add leaves
every stored record non-empty — and the sync merge preserves it whenever
the fetched remote records are themselves non-empty; the import path,
however, checks only that `text` and `category` are strings, and may
store records with empty ones. -/
theorem nonempty_invariant_add_merge (qs : List Quote)
    (rawText rawCategory : String) (now now2 : Int) (po : PostOutcome)
    (hqs : ∀ q ∈ qs, nonEmptyQuote q) :
    ((jsTrim rawText = "" ∨ jsTrim rawCategory = "") →
      handleAddQuote qs rawText rawCategory now po now2 =
        (qs, [.alert ("Please ensure both the quote text and a category are entered.")])) ∧
    (∀ q ∈ (handleAddQuote qs rawText rawCategory now po now2).1, nonEmptyQuote q) ∧
    (∀ remoteQs : List Quote, (∀ q ∈ remoteQs, nonEmptyQuote q) →
      ∀ q ∈ (mergeQuotes qs remoteQs).quotes, nonEmptyQuote q) := by
  refine ⟨?_, ?_, ?_⟩
  · intro hempty
    have hcond : ¬(jsTrim rawText ≠ "" ∧ jsTrim rawCategory ≠ "") := by
      rcases hempty with h | h
      · exact fun hc => hc.1 h
      · exact fun hc => hc.2 h
    simp [handleAddQuote, hcond]
  · by_cases hcond : jsTrim rawText ≠ "" ∧ jsTrim rawCategory ≠ ""
    · cases po <;>
        · simp only [handleAddQuote, postNewQuoteToServer, if_pos hcond]
          intro q hq
          rcases List.mem_append.mp hq with h | h
          · exact hqs q h
          · simp at h
            subst h
            exact ⟨hcond.1, hcond.2⟩
    · simp only [handleAddQuote, if_neg hcond]
      exact hqs
  · intro remoteQs hrem
    exact mergeQuotes_values qs remoteQs nonEmptyQuote hqs hrem

/-- Witness for the amended C9. -/
theorem nonempty_invariant_add_merge_witness :
    (∀ q ∈ ([⟨"good", "cat", none, none⟩] : List Quote), nonEmptyQuote q) ∧
    (((jsTrim (" ") = "" ∨ jsTrim ("c") = "") →
      handleAddQuote [⟨"good", "cat", none, none⟩] (" ") ("c") 3 .connFail 4 =
        ([⟨"good", "cat", none, none⟩],
          [.alert ("Please ensure both the quote text and a category are entered.")])) ∧
    (∀ q ∈ (handleAddQuote [⟨"good", "cat", none, none⟩] (" ") ("c") 3 .connFail 4).1,
      nonEmptyQuote q) ∧
    (∀ remoteQs : List Quote, (∀ q ∈ remoteQs, nonEmptyQuote q) →
      ∀ q ∈ (mergeQuotes [⟨"good", "cat", none, none⟩] remoteQs).quotes,
        nonEmptyQuote q)) :=
  ⟨by decide, nonempty_invariant_add_merge [⟨"good", "cat", none, none⟩]
    (" ") ("c") 3 4 .connFail (by decide)⟩

/-! Claim C10 -/

/-- Claim C10: an invocation of `syncQuotes` while the guard flag is set
returns immediately: the state (collection, storage, statuses, flag) is
untouched and no fetch is performed; nothing is queued, since the result
of the call is the unchanged state itself. -/
theorem syncQuotes_reentrancy_guard (s : SyncState) (fo : FetchOutcome) (now : Int)
    (h : s.isSyncing = true) :
    syncQuotes s fo now = (s, false) := by
  simp [syncQuotes, h]

/-- Witness for C10. -/
theorem syncQuotes_reentrancy_guard_witness :
    (SyncState.mk [⟨"a", "c", none, none⟩] [] true ⟨"Syncing...", "loading"⟩ "").isSyncing
      = true ∧
    syncQuotes (SyncState.mk [⟨"a", "c", none, none⟩] [] true
        ⟨"Syncing...", "loading"⟩ "") (.ok [⟨7, "hello"⟩]) 0 =
      (SyncState.mk [⟨"a", "c", none, none⟩] [] true ⟨"Syncing...", "loading"⟩ "", false) :=
  ⟨rfl, syncQuotes_reentrancy_guard
    (SyncState.mk [⟨"a", "c", none, none⟩] [] true ⟨"Syncing...", "loading"⟩ "")
    (.ok [⟨7, "hello"⟩]) 0 rfl⟩

end QuoteApp
